import Mathlib

/-!
Shallow embedding of the stats-to-metrics translation pipeline of the
docker-stats-exporter repository (src/main.rs, src/convert_to_bytes.rs,
src/docker.rs).

Modelling conventions:
* Rust `String` values are modelled as `List Char`.
* Rust `f64` values are modelled by `FVal`: a finite rational (decimal
  literals and the fixed unit multipliers are represented exactly; the
  rounding of `f64` arithmetic is not modelled, which is exact at every
  concrete value appearing in the claims), positive or negative infinity,
  or NaN.  `f64::from_str` is modelled by `parseF64`, following the
  documented grammar of the Rust standard library: optional sign, then
  `inf`, `infinity` or `nan` (case-insensitive) or a decimal mantissa with
  at least one digit and an optional exponent part.
* Rust `char::is_alphabetic` is modelled by `Char.isAlpha` (ASCII); every
  string the grammars of this program accept is ASCII.
* `anyhow` errors are modelled by the inductive `PErr`; each constructor
  records exactly the payload the source interpolates into its message
  (for instance `PErr.unknownUnit u` stands for the message
  "Couldn't convert unit '{u}' to bytes.").
* Fallible Rust functions returning `Result` are modelled with `Except`;
  the `?` operator becomes a `match` that propagates the error.
-/

/-- The characters of a string literal; used to write down concrete Rust
string values as `List Char`. -/
def chars (s : String) : List Char := s.toList

/-- A Rust `f64` value as produced by parsing: a finite value (modelled as
an exact rational), an infinity, or NaN. -/
inductive FVal where
  | finite (q : ℚ)
  | inf
  | negInf
  | nan
  deriving DecidableEq

/-- The error values of the pipeline.  Each constructor corresponds to one
`anyhow!`/library error site of the source and records the payload that the
source interpolates into the message:
* `unknownUnit u` — convert_to_bytes.rs: "Couldn't convert unit '{u}' to bytes."
* `invalidFloat` — `f64::from_str` failure ("invalid float literal")
* `badNetio raw` — main.rs: "Bad netio string: '{raw}'"
* `badBlockio raw` — main.rs: "Bad block IO string: '{raw}'"
* `badMemUsage raw` — main.rs: "Bad memory usage string: '{raw}'"
* `duplicateMetric name` — the registry rejecting an already registered
  metric (spec §7 `DuplicateMetric`). -/
inductive PErr where
  | unknownUnit (unit : List Char)
  | invalidFloat
  | badNetio (raw : List Char)
  | badBlockio (raw : List Char)
  | badMemUsage (raw : List Char)
  | duplicateMetric (name : List Char)
  deriving DecidableEq

deriving instance DecidableEq for Except

/-- Multiplication on `ℚ`, written with `mkRat` so that it evaluates by
kernel reduction; equal to `HMul.hMul` by `qmul_eq_mul` below. -/
def qmul (a b : ℚ) : ℚ := mkRat (a.num * b.num) (a.den * b.den)

/-- Addition on `ℚ`, written with `mkRat` so that it evaluates by kernel
reduction; equal to `HAdd.hAdd` by `qadd_eq_add` below. -/
def qadd (a b : ℚ) : ℚ := mkRat (a.num * b.den + b.num * a.den) (a.den * b.den)

/-- Negation on `ℚ`, written with `mkRat` so that it evaluates by kernel
reduction; equal to `Neg.neg` by `qneg_eq_neg` below. -/
def qneg (a : ℚ) : ℚ := mkRat (-a.num) a.den

/-- Numeric value of a list of ASCII digits, most significant first. -/
def digitsToNat (l : List Char) : Nat :=
  l.foldl (fun a c => 10 * a + (c.toNat - 48)) 0

/-- Parse the mantissa part of a float literal: `digits`, `digits.`,
`digits.digits` or `.digits` (at least one digit in total).  Returns the
exact rational value and the unconsumed remainder. -/
def parseMantissa (l : List Char) : Option (ℚ × List Char) :=
  let ip := l.takeWhile Char.isDigit
  let r1 := l.dropWhile Char.isDigit
  match r1 with
  | '.' :: r2 =>
    let fp := r2.takeWhile Char.isDigit
    let r3 := r2.dropWhile Char.isDigit
    if ip.isEmpty && fp.isEmpty then none
    else some (qadd (mkRat (digitsToNat ip : Int) 1) (mkRat (digitsToNat fp : Int) (10 ^ fp.length)), r3)
  | _ => if ip.isEmpty then none else some (mkRat (digitsToNat ip : Int) 1, r1)

/-- Parse the exponent tail of a float literal: either empty, or
`e`/`E`, an optional sign and at least one digit. -/
def parseExpTail (l : List Char) : Option Int :=
  match l with
  | [] => some 0
  | c :: r =>
    if c = 'e' ∨ c = 'E' then
      match r with
      | '+' :: r2 => if !r2.isEmpty && r2.all Char.isDigit then some (digitsToNat r2 : Int) else none
      | '-' :: r2 => if !r2.isEmpty && r2.all Char.isDigit then some (-(digitsToNat r2 : Int)) else none
      | r2 => if !r2.isEmpty && r2.all Char.isDigit then some (digitsToNat r2 : Int) else none
    else none

/-- Exact rational value of a power of ten with integer exponent. -/
def pow10 (e : Int) : ℚ :=
  if 0 ≤ e then mkRat ((10 : Nat) ^ e.toNat : Int) 1 else mkRat 1 ((10 : Nat) ^ (-e).toNat)

/-- The special (non-numeric) forms accepted by `f64::from_str`:
`inf`, `infinity` and `nan`, case-insensitive, after the optional sign. -/
def parseSpecial (body : List Char) (neg : Bool) : Option FVal :=
  let lower := body.map Char.toLower
  if lower = chars "inf" ∨ lower = chars "infinity" then
    some (if neg then FVal.negInf else FVal.inf)
  else if lower = chars "nan" then some FVal.nan
  else none

/-- Model of Rust `f64::from_str` (the `.parse::<f64>()` calls of
main.rs): optional sign, then a special form or a decimal mantissa with
optional exponent; the whole input must be consumed.  Finite values are
represented exactly as rationals. -/
def parseF64 (l : List Char) : Option FVal :=
  let p : Bool × List Char :=
    match l with
    | '+' :: r => (false, r)
    | '-' :: r => (true, r)
    | r => (false, r)
  match parseSpecial p.2 p.1 with
  | some v => some v
  | none =>
    match parseMantissa p.2 with
    | none => none
    | some (m, rest) =>
      match parseExpTail rest with
      | none => none
      | some e => some (FVal.finite (qmul (if p.1 then qneg m else m) (pow10 e)))

/-- The `UNIT_MAP` table of src/convert_to_bytes.rs: base unit `B`,
decimal units `kB, MB, GB, TB` (powers of 1000) and binary units
`KiB, MiB, GiB, TiB` (powers of 1024); every other symbol is absent. -/
def UNIT_MAP (u : List Char) : Option ℚ :=
  if u = chars "B" then some 1
  else if u = chars "kB" then some 1000
  else if u = chars "MB" then some 1000000
  else if u = chars "GB" then some 1000000000
  else if u = chars "TB" then some 1000000000000
  else if u = chars "KiB" then some 1024
  else if u = chars "MiB" then some 1048576
  else if u = chars "GiB" then some 1073741824
  else if u = chars "TiB" then some 1099511627776
  else none

/-- Multiplication `rate * value` of f64 values where `rate` is one of the
(finite, positive) table multipliers: finite values multiply exactly,
infinities and NaN are absorbing, matching `f64` multiplication by a
positive finite number. -/
def scaleFVal (rate : ℚ) (v : FVal) : FVal :=
  match v with
  | FVal.finite q => FVal.finite (qmul rate q)
  | FVal.inf => FVal.inf
  | FVal.negInf => FVal.negInf
  | FVal.nan => FVal.nan

/-- src/convert_to_bytes.rs `convert_to_bytes`: look the unit up in
`UNIT_MAP`; on a miss fail with the unknown-unit error carrying the unit
string verbatim; on a hit return `conversion_rate * value`. -/
def convert_to_bytes (value : FVal) (unit : List Char) : Except PErr FVal :=
  match UNIT_MAP unit with
  | none => Except.error (PErr.unknownUnit unit)
  | some rate => Except.ok (scaleFVal rate value)

/-- src/main.rs `parse_io_str`: collect the trailing run of alphabetic
characters (scanning from the end) as the unit, parse the remaining prefix
as an f64 and convert it to bytes. -/
def parse_io_str (s : List Char) : Except PErr FVal :=
  let unit := (s.reverse.takeWhile Char.isAlpha).reverse
  let value := s.take (s.length - unit.length)
  match parseF64 value with
  | none => Except.error PErr.invalidFloat
  | some fv => convert_to_bytes fv unit

/-- Rust `str::split(" / ")`: split on every non-overlapping occurrence of
the three-character separator, scanning left to right; always yields at
least one (possibly empty) segment. -/
def splitPairSep : List Char → List (List Char)
  | [] => [[]]
  | ' ' :: '/' :: ' ' :: rest => [] :: splitPairSep rest
  | c :: rest =>
    match splitPairSep rest with
    | [] => [[c]]
    | seg :: segs => (c :: seg) :: segs

/-- src/main.rs `parse_netio_str`: split on " / "; `Vec::pop` twice binds
`output` to the last segment and `input` to the second-to-last (failing
with the bad-netio error when fewer than two segments exist; any earlier
segments stay in the vector and are ignored); parse `input` first, then
`output`, and return `(inp, out)`. -/
def parse_netio_str (s : List Char) : Except PErr (FVal × FVal) :=
  match (splitPairSep s).reverse with
  | output :: input :: _ =>
    (match parse_io_str input with
     | Except.error e => Except.error e
     | Except.ok inp =>
       match parse_io_str output with
       | Except.error e => Except.error e
       | Except.ok out => Except.ok (inp, out))
  | _ => Except.error (PErr.badNetio s)

/-- src/main.rs `parse_blockio_str`: identical structure to
`parse_netio_str`, with the bad-block-IO error message. -/
def parse_blockio_str (s : List Char) : Except PErr (FVal × FVal) :=
  match (splitPairSep s).reverse with
  | output :: input :: _ =>
    (match parse_io_str input with
     | Except.error e => Except.error e
     | Except.ok inp =>
       match parse_io_str output with
       | Except.error e => Except.error e
       | Except.ok out => Except.ok (inp, out))
  | _ => Except.error (PErr.badBlockio s)

/-- src/main.rs `parse_mem_usage_str`: split on " / "; `Vec::pop` twice
binds `limit` to the last segment and `usage` to the second-to-last;
parse `usage` first, then `limit`, and return `(usage_bytes, limit_bytes)`. -/
def parse_mem_usage_str (s : List Char) : Except PErr (FVal × FVal) :=
  match (splitPairSep s).reverse with
  | limit :: usage :: _ =>
    (match parse_io_str usage with
     | Except.error e => Except.error e
     | Except.ok usage_bytes =>
       match parse_io_str limit with
       | Except.error e => Except.error e
       | Except.ok limit_bytes => Except.ok (usage_bytes, limit_bytes))
  | _ => Except.error (PErr.badMemUsage s)

/-- Association list of label pairs; models the `HashMap<String, String>`
carried by `Opts` (keys are unique by construction of `insertLabel`). -/
abbrev LabelMap := List (List Char × List Char)

/-- `HashMap::insert` semantics on the association-list model: if the key
is present, replace its value in place; otherwise append the new pair. -/
def insertLabel (m : LabelMap) (k v : List Char) : LabelMap :=
  if m.any (fun p => decide (p.1 = k)) then
    m.map (fun p => if p.1 = k then (k, v) else p)
  else m ++ [(k, v)]

/-- First value stored under a key in a label list. -/
def lookupKey (k : List Char) : LabelMap → Option (List Char)
  | [] => none
  | p :: rest => if p.1 = k then some p.2 else lookupKey k rest

/-- `name.replace("-", "_")` of src/main.rs `get_gauge` (the separator is a
single character, so the substring replace is a character map). -/
def replaceDash (s : List Char) : List Char :=
  s.map fun c => if c = '-' then '_' else c

/-- A derived metric sample: name (after dash replacement), help text,
value and const-label set.  Models the data of one prometheus `Gauge`
built by src/main.rs `get_gauge`. -/
structure GaugeModel where
  name : List Char
  help : List Char
  value : FVal
  labels : LabelMap
  deriving DecidableEq

/-- The label map built by src/main.rs `get_gauge`: the "container" label
is inserted first, then every user-supplied label is inserted into the
same map (so a user label keyed "container" overwrites the container
name).  The user map is a `HashMap`; it is modelled as a list whose
iteration order is the list order. -/
def buildLabels (labels : LabelMap) (container_name : List Char) : LabelMap :=
  labels.foldl (fun m p => insertLabel m p.1 p.2)
    (insertLabel [] (chars "container") container_name)

/-- The gauge value constructed by src/main.rs `get_gauge`. -/
def mkGauge (name help : List Char) (value : FVal) (container_name : List Char)
    (labels : LabelMap) : GaugeModel :=
  { name := replaceDash name, help := help, value := value,
    labels := buildLabels labels container_name }

/-- src/main.rs `get_gauge`.  The prometheus `Gauge::with_opts` validation
of metric and label name spelling (which never fails on the fixed names
this program uses together with well-formed label keys) is not modelled,
so the construction always succeeds. -/
def get_gauge (name help : List Char) (value : FVal) (container_name : List Char)
    (labels : LabelMap) : Except PErr GaugeModel :=
  Except.ok (mkGauge name help value container_name labels)

/-- src/main.rs `percent_gauge`: `String::pop` removes the last character
of the raw string unconditionally (whatever it is), the remainder is
parsed as an f64 (failing with the invalid-float error), and the value is
stored unscaled. -/
def percent_gauge (name : List Char) (percent_string : List Char) (help : List Char)
    (container_name : List Char) (labels : LabelMap) : Except PErr GaugeModel :=
  match parseF64 percent_string.dropLast with
  | none => Except.error PErr.invalidFloat
  | some v => get_gauge name help v container_name labels

/-- The container record as used by src/main.rs `gauges_for_container`
(fields `container`, `cpu_perc`, `mem_usage`, `net_io`, `block_io`, plus
the unused `mem_limit`).  The `DockerContainerStats` struct written in
src/docker.rs lacks the `block_io` field main.rs reads — variant skew in
the snapshot — so the record here follows the fields main.rs actually
uses. -/
structure DockerContainerStats where
  container : List Char
  cpu_perc : List Char
  mem_usage : List Char
  mem_limit : List Char
  net_io : List Char
  block_io : List Char
  deriving DecidableEq

/-- The seven gauges produced for one record, in construction order, given
the already parsed field values. -/
def mkGaugeList (stat : DockerContainerStats) (labels : LabelMap)
    (v mu ml ni no br bw : FVal) : List GaugeModel :=
  [ mkGauge (chars "container_cpu_usage") (chars "CPU usage percentage for container") v stat.container labels,
    mkGauge (chars "container_memory_usage_bytes") (chars "Memory usage in bytes for container") mu stat.container labels,
    mkGauge (chars "container_memory_limit_bytes") (chars "Memory limit in bytes for container") ml stat.container labels,
    mkGauge (chars "container_network_input_bytes") (chars "Network input bytes for container") ni stat.container labels,
    mkGauge (chars "container_network_output_bytes") (chars "Network output bytes for container") no stat.container labels,
    mkGauge (chars "container_block_read_bytes") (chars "Block read bytes for container") br stat.container labels,
    mkGauge (chars "container_block_write_bytes") (chars "Block write bytes for container") bw stat.container labels ]

/-- src/main.rs `gauges_for_container`: build the CPU percentage gauge,
the two memory gauges from `parse_mem_usage_str`, the two network gauges
from `parse_netio_str` and the two block-IO gauges from
`parse_blockio_str`, propagating the first error (`?` operator). -/
def gauges_for_container (stat : DockerContainerStats) (labels : LabelMap) :
    Except PErr (List GaugeModel) :=
  match percent_gauge (chars "container_cpu_usage") stat.cpu_perc
      (chars "CPU usage percentage for container") stat.container labels with
  | Except.error e => Except.error e
  | Except.ok cpu_gauge =>
    match parse_mem_usage_str stat.mem_usage with
    | Except.error e => Except.error e
    | Except.ok p1 =>
      match get_gauge (chars "container_memory_usage_bytes")
          (chars "Memory usage in bytes for container") p1.1 stat.container labels with
      | Except.error e => Except.error e
      | Except.ok mem_usage_gauge =>
        match get_gauge (chars "container_memory_limit_bytes")
            (chars "Memory limit in bytes for container") p1.2 stat.container labels with
        | Except.error e => Except.error e
        | Except.ok mem_limit_gauge =>
          match parse_netio_str stat.net_io with
          | Except.error e => Except.error e
          | Except.ok p2 =>
            match get_gauge (chars "container_network_input_bytes")
                (chars "Network input bytes for container") p2.1 stat.container labels with
            | Except.error e => Except.error e
            | Except.ok net_input_gauge =>
              match get_gauge (chars "container_network_output_bytes")
                  (chars "Network output bytes for container") p2.2 stat.container labels with
              | Except.error e => Except.error e
              | Except.ok net_output_gauge =>
                match parse_blockio_str stat.block_io with
                | Except.error e => Except.error e
                | Except.ok p3 =>
                  match get_gauge (chars "container_block_read_bytes")
                      (chars "Block read bytes for container") p3.1 stat.container labels with
                  | Except.error e => Except.error e
                  | Except.ok block_read_gauge =>
                    match get_gauge (chars "container_block_write_bytes")
                        (chars "Block write bytes for container") p3.2 stat.container labels with
                    | Except.error e => Except.error e
                    | Except.ok block_write_gauge =>
                      Except.ok [cpu_gauge, mem_usage_gauge, mem_limit_gauge,
                        net_input_gauge, net_output_gauge, block_read_gauge,
                        block_write_gauge]

/-- Whether two label lists denote the same label set (each pair of one
looks up to the same value in the other). -/
def sameLabelSet (l1 l2 : LabelMap) : Bool :=
  (l1.all fun p => decide (lookupKey p.1 l2 = some p.2)) &&
  (l2.all fun p => decide (lookupKey p.1 l1 = some p.2))

/-- Whether registering `g` collides with an already registered gauge `h`:
the same metric name with an identical label set. -/
def conflictB (h g : GaugeModel) : Bool :=
  if h.name = g.name then sameLabelSet h.labels g.labels else false

/-- Modelled from the spec: the metric registry of the external prometheus
crate, which is not part of this repository (spec section 4.4).
Registering a sample whose metric name and label set coincide with an
already registered sample is a collision and fails with the
duplicate-metric error; the same name with a different label set is a
distinct series and is accepted. -/
def registerGauge (st : List GaugeModel) (g : GaugeModel) :
    Except PErr (List GaugeModel) :=
  if st.any (fun h => conflictB h g) then Except.error (PErr.duplicateMetric g.name)
  else Except.ok (st ++ [g])

/-- Register a list of gauges one by one, propagating the first error
(the inner loop of src/main.rs `get_prometheus_format`). -/
def registerList (st : List GaugeModel) : List GaugeModel → Except PErr (List GaugeModel)
  | [] => Except.ok st
  | g :: gs =>
    match registerGauge st g with
    | Except.error e => Except.error e
    | Except.ok st2 => registerList st2 gs

/-- The loop of src/main.rs `get_prometheus_format`: for each container
record, derive its gauges (`?` propagates the parse error) and register
each of them (`?` propagates a registration error). -/
def registerAll (labels : LabelMap) (st : List GaugeModel) :
    List DockerContainerStats → Except PErr (List GaugeModel)
  | [] => Except.ok st
  | r :: rest =>
    match gauges_for_container r labels with
    | Except.error e => Except.error e
    | Except.ok gs =>
      match registerList st gs with
      | Except.error e => Except.error e
      | Except.ok st2 => registerAll labels st2 rest

/-- Modelled from the spec: the Prometheus text exposition of the
registered samples (spec section 4.4), produced by the external encoder
crate.  The claims only inspect whether any text is produced, so the
serialization lists each metric name with its label pairs; the numeric
formatting of the value is elided. -/
def encodeGauges (gs : List GaugeModel) : List Char :=
  gs.foldl
    (fun acc g =>
      acc ++ g.name ++
        g.labels.foldl (fun a p => a ++ [' '] ++ p.1 ++ ['='] ++ p.2) [] ++ ['\n'])
    []

/-- src/main.rs `get_prometheus_format`: register the gauges of every
record into a fresh registry, then encode the result; any error aborts the
whole scrape with that error and no text. -/
def get_prometheus_format (stats : List DockerContainerStats) (labels : LabelMap) :
    Except PErr (List Char) :=
  match registerAll labels [] stats with
  | Except.error e => Except.error e
  | Except.ok st => Except.ok (encodeGauges st)

/-- A concrete well-formed container record used to instantiate the
theorems below. -/
def sampleWeb : DockerContainerStats :=
  { container := chars "web", cpu_perc := chars "12.5%",
    mem_usage := chars "100MiB / 200MiB", mem_limit := chars "",
    net_io := chars "1kB / 2kB", block_io := chars "3kB / 4kB" }

/-- A second concrete record with a different container name. -/
def sampleDb : DockerContainerStats :=
  { container := chars "db", cpu_perc := chars "0%",
    mem_usage := chars "1kB / 2kB", mem_limit := chars "",
    net_io := chars "3kB / 4kB", block_io := chars "5kB / 6kB" }

/-- A concrete record whose net_io field does not contain the pair
separator, so its derivation fails. -/
def sampleBad : DockerContainerStats :=
  { container := chars "oops", cpu_perc := chars "1%",
    mem_usage := chars "1kB / 2kB", mem_limit := chars "",
    net_io := chars "bad", block_io := chars "5kB / 6kB" }

/-- The gauge list derived for `sampleWeb` with no user labels. -/
def sampleWebGauges : List GaugeModel :=
  mkGaugeList sampleWeb [] (FVal.finite (mkRat 25 2)) (FVal.finite 104857600)
    (FVal.finite 209715200) (FVal.finite 1000) (FVal.finite 2000)
    (FVal.finite 3000) (FVal.finite 4000)

/-- The gauge list derived for `sampleDb` with no user labels. -/
def sampleDbGauges : List GaugeModel :=
  mkGaugeList sampleDb [] (FVal.finite 0) (FVal.finite 1000) (FVal.finite 2000)
    (FVal.finite 3000) (FVal.finite 4000) (FVal.finite 5000) (FVal.finite 6000)

/-- A user label set that reuses the key "container". -/
def overrideLabels : LabelMap := [(chars "container", chars "override")]

/-- The gauge list derived for `sampleWeb` under `overrideLabels`. -/
def overrideGauges : List GaugeModel :=
  mkGaugeList sampleWeb overrideLabels (FVal.finite (mkRat 25 2))
    (FVal.finite 104857600) (FVal.finite 209715200) (FVal.finite 1000)
    (FVal.finite 2000) (FVal.finite 3000) (FVal.finite 4000)

/-! ### Helper lemmas -/

theorem qmul_eq_mul (a b : ℚ) : qmul a b = a * b := by
  rw [Rat.mul_def, qmul, Rat.normalize_eq_mkRat]

theorem qadd_eq_add (a b : ℚ) : qadd a b = a + b := by
  rw [Rat.add_def, qadd, Rat.normalize_eq_mkRat]

theorem qneg_eq_neg (a : ℚ) : qneg a = -a := by
  rw [Rat.neg_def, qneg, Rat.divInt_ofNat]

theorem takeWhile_append_all {p : Char → Bool} {a : List Char} (b : List Char)
    (h : ∀ c ∈ a, p c = true) : (a ++ b).takeWhile p = a ++ b.takeWhile p := by
  induction a with
  | nil => simp
  | cons c t ih =>
    have hc := h c (by simp)
    have ht := ih fun x hx => h x (by simp [hx])
    simp [List.takeWhile_cons, hc, ht]

theorem takeWhile_eq_nil_of_all_false {p : Char → Bool} {l : List Char}
    (h : ∀ c ∈ l, p c = false) : l.takeWhile p = [] := by
  cases l with
  | nil => rfl
  | cons c t => simp [List.takeWhile_cons, h c (by simp)]

/-- Keys of a label list are pairwise distinct. -/
def keysND (m : LabelMap) : Prop := (m.map Prod.fst).Nodup


theorem lookupKey_replace_mem {m : LabelMap} {k : List Char} (v : List Char)
    (h : ∃ p ∈ m, p.1 = k) :
    lookupKey k (m.map (fun p => if p.1 = k then (k, v) else p)) = some v := by
  induction m with
  | nil => rcases h with ⟨p, hp, _⟩; cases hp
  | cons q t ih =>
    by_cases hq : q.1 = k
    · rw [List.map_cons, if_pos hq]
      simp [lookupKey]
    · rcases h with ⟨p, hp, hpk⟩
      rcases List.mem_cons.mp hp with rfl | hp
      · exact absurd hpk hq
      · rw [List.map_cons, if_neg hq, lookupKey, if_neg hq]
        exact ih ⟨p, hp, hpk⟩

theorem lookupKey_replace_ne {m : LabelMap} {k k2 v : List Char} (hne : k2 ≠ k) :
    lookupKey k (m.map (fun p => if p.1 = k2 then (k2, v) else p)) = lookupKey k m := by
  induction m with
  | nil => rfl
  | cons q t ih =>
    by_cases hq : q.1 = k2
    · have hqk : ¬ q.1 = k := fun hc => hne (hq ▸ hc)
      rw [List.map_cons, if_pos hq, lookupKey, if_neg hne, lookupKey, if_neg hqk]
      exact ih
    · rw [List.map_cons, if_neg hq, lookupKey, lookupKey]
      by_cases hqk : q.1 = k
      · rw [if_pos hqk, if_pos hqk]
      · rw [if_neg hqk, if_neg hqk]
        exact ih

theorem lookupKey_append (m l2 : LabelMap) (k : List Char) :
    lookupKey k (m ++ l2) =
      match lookupKey k m with
      | some v => some v
      | none => lookupKey k l2 := by
  induction m with
  | nil => rfl
  | cons q t ih =>
    by_cases hq : q.1 = k
    · rw [List.cons_append, lookupKey, if_pos hq, lookupKey, if_pos hq]
    · rw [List.cons_append, lookupKey, if_neg hq, lookupKey, if_neg hq]
      exact ih

theorem lookupKey_eq_none_of_all_ne {m : LabelMap} {k : List Char}
    (hall : ∀ p ∈ m, p.1 ≠ k) : lookupKey k m = none := by
  induction m with
  | nil => rfl
  | cons q t ih =>
    rw [lookupKey, if_neg (hall q (by simp))]
    exact ih fun p hp => hall p (by simp [hp])

theorem lookupKey_insertLabel_self (m : LabelMap) (k v : List Char) :
    lookupKey k (insertLabel m k v) = some v := by
  rw [insertLabel]
  by_cases h : m.any (fun p => decide (p.1 = k)) = true
  · rw [if_pos h]
    rcases List.any_eq_true.mp h with ⟨p, hp, hpk⟩
    exact lookupKey_replace_mem v ⟨p, hp, of_decide_eq_true hpk⟩
  · rw [if_neg h, lookupKey_append]
    have hall : ∀ p ∈ m, p.1 ≠ k := fun p hp hk =>
      h (List.any_eq_true.mpr ⟨p, hp, decide_eq_true hk⟩)
    rw [lookupKey_eq_none_of_all_ne hall, lookupKey, if_pos rfl]

theorem lookupKey_insertLabel_ne (m : LabelMap) {k k2 : List Char} (v : List Char)
    (hne : k2 ≠ k) : lookupKey k (insertLabel m k2 v) = lookupKey k m := by
  rw [insertLabel]
  by_cases h : m.any (fun p => decide (p.1 = k2)) = true
  · rw [if_pos h]
    exact lookupKey_replace_ne hne
  · rw [if_neg h, lookupKey_append]
    cases hm : lookupKey k m with
    | some w => rfl
    | none => rw [lookupKey, if_neg hne]; rfl

theorem lookupKey_foldl_ne {k : List Char} (L : List (List Char × List Char))
    (init : LabelMap) (h : ∀ p ∈ L, p.1 ≠ k) :
    lookupKey k (L.foldl (fun m p => insertLabel m p.1 p.2) init) = lookupKey k init := by
  induction L generalizing init with
  | nil => rfl
  | cons q t ih =>
    rw [List.foldl_cons, ih _ (fun p hp => h p (by simp [hp])),
      lookupKey_insertLabel_ne _ _ (h q (by simp))]

theorem buildLabels_lookup_container (L : LabelMap) (cn : List Char)
    (h : ∀ p ∈ L, p.1 ≠ chars "container") :
    lookupKey (chars "container") (buildLabels L cn) = some cn := by
  rw [buildLabels, lookupKey_foldl_ne L _ h, lookupKey_insertLabel_self]

theorem mem_of_lookupKey_eq_some {m : LabelMap} {k v : List Char}
    (h : lookupKey k m = some v) : (k, v) ∈ m := by
  induction m with
  | nil => cases h
  | cons q t ih =>
    obtain ⟨q1, q2⟩ := q
    by_cases hq : q1 = k
    · rw [lookupKey, if_pos hq] at h
      injection h with h2
      subst h2
      subst hq
      exact List.mem_cons_self _ _
    · rw [lookupKey, if_neg hq] at h
      exact List.mem_cons_of_mem _ (ih h)

theorem keysND_insertLabel {m : LabelMap} (k v : List Char) (h : keysND m) :
    keysND (insertLabel m k v) := by
  rw [insertLabel]
  by_cases hany : m.any (fun p => decide (p.1 = k)) = true
  · rw [if_pos hany]
    have hmap : (m.map (fun p => if p.1 = k then (k, v) else p)).map Prod.fst
        = m.map Prod.fst := by
      rw [List.map_map]
      apply List.map_congr_left
      intro p hp
      by_cases hpk : p.1 = k
      · simp [hpk]
      · simp [hpk]
    rw [keysND, hmap]
    exact h
  · rw [if_neg hany]
    have hk : ∀ p ∈ m, p.1 ≠ k := fun p hp hpk =>
      hany (List.any_eq_true.mpr ⟨p, hp, decide_eq_true hpk⟩)
    rw [keysND, List.map_append, List.nodup_append]
    refine ⟨h, by simp, ?_⟩
    intro a ha hb
    rcases List.mem_map.mp ha with ⟨p, hp, rfl⟩
    have : p.1 = k := by simpa using hb
    exact hk p hp this

theorem keysND_foldl_insert (L : List (List Char × List Char)) (init : LabelMap)
    (h : keysND init) :
    keysND (L.foldl (fun m p => insertLabel m p.1 p.2) init) := by
  induction L generalizing init with
  | nil => exact h
  | cons q t ih =>
    rw [List.foldl_cons]
    exact ih _ (keysND_insertLabel _ _ h)

theorem keysND_buildLabels (L : LabelMap) (cn : List Char) :
    keysND (buildLabels L cn) := by
  rw [buildLabels]
  exact keysND_foldl_insert _ _ (keysND_insertLabel _ _ (by simp [keysND]))

theorem lookupKey_of_mem_keysND {m : LabelMap} {k v : List Char}
    (h : keysND m) (hmem : (k, v) ∈ m) : lookupKey k m = some v := by
  induction m with
  | nil => cases hmem
  | cons q t ih =>
    rcases List.mem_cons.mp hmem with rfl | hmem
    · rw [lookupKey, if_pos rfl]
    · by_cases hq : q.1 = k
      · exfalso
        rw [keysND, List.map_cons, List.nodup_cons] at h
        exact h.1 (hq ▸ List.mem_map.mpr ⟨(k, v), hmem, rfl⟩)
      · rw [lookupKey, if_neg hq]
        rw [keysND, List.map_cons, List.nodup_cons] at h
        exact ih h.2 hmem

theorem sameLabelSet_self {l : LabelMap} (h : keysND l) : sameLabelSet l l = true := by
  rw [sameLabelSet]
  have hall : l.all (fun p => decide (lookupKey p.1 l = some p.2)) = true := by
    rw [List.all_eq_true]
    intro p hp
    exact decide_eq_true (lookupKey_of_mem_keysND h (by
      rcases p with ⟨p1, p2⟩
      exact hp))
  rw [hall]
  rfl

theorem sameLabelSet_false_of_ne {l1 l2 : LabelMap} {k v : List Char}
    (hmem : (k, v) ∈ l1) (hne : lookupKey k l2 ≠ some v) :
    sameLabelSet l1 l2 = false := by
  rw [sameLabelSet]
  have hall : l1.all (fun p => decide (lookupKey p.1 l2 = some p.2)) = false := by
    cases hcase : l1.all (fun p => decide (lookupKey p.1 l2 = some p.2)) with
    | false => rfl
    | true =>
      exfalso
      exact hne (of_decide_eq_true (List.all_eq_true.mp hcase (k, v) hmem))
  rw [hall]
  rfl

theorem lookupKey_foldl_of_mem {k w : List Char} (L : List (List Char × List Char))
    (hnd : (L.map Prod.fst).Nodup) (hmem : (k, w) ∈ L) (init : LabelMap) :
    lookupKey k (L.foldl (fun m p => insertLabel m p.1 p.2) init) = some w := by
  induction L generalizing init with
  | nil => cases hmem
  | cons q t ih =>
    rw [List.map_cons, List.nodup_cons] at hnd
    rcases List.mem_cons.mp hmem with rfl | hmem
    · rw [List.foldl_cons]
      have hnot : ∀ p ∈ t, p.1 ≠ k := by
        intro p hp hc
        exact hnd.1 (hc ▸ List.mem_map.mpr ⟨p, hp, rfl⟩)
      rw [lookupKey_foldl_ne t _ hnot, lookupKey_insertLabel_self]
    · rw [List.foldl_cons]
      exact ih hnd.2 hmem _

/-- The "container" entry of the labels built for container name `cn` is
`cn` itself whenever the user labels do not use the key "container". -/
theorem buildLabels_container_mem (L : LabelMap) (cn : List Char)
    (h : ∀ p ∈ L, p.1 ≠ chars "container") :
    (chars "container", cn) ∈ buildLabels L cn :=
  mem_of_lookupKey_eq_some (buildLabels_lookup_container L cn h)

theorem sameLabelSet_buildLabels_ne (L : LabelMap) {c c2 : List Char}
    (h : ∀ p ∈ L, p.1 ≠ chars "container") (hne : c ≠ c2) :
    sameLabelSet (buildLabels L c) (buildLabels L c2) = false := by
  apply sameLabelSet_false_of_ne (buildLabels_container_mem L c h)
  rw [buildLabels_lookup_container L c2 h]
  intro hc
  injection hc with hc2
  exact hne hc2.symm

theorem conflictB_of_name_ne {h g : GaugeModel} (hne : h.name ≠ g.name) :
    conflictB h g = false := by
  rw [conflictB, if_neg hne]

theorem conflictB_of_labels_ne {h g : GaugeModel}
    (hl : sameLabelSet h.labels g.labels = false) : conflictB h g = false := by
  rw [conflictB]
  by_cases hn : h.name = g.name
  · rw [if_pos hn]; exact hl
  · rw [if_neg hn]

theorem conflictB_eq_true {h g : GaugeModel} (hn : h.name = g.name)
    (hl : sameLabelSet h.labels g.labels = true) : conflictB h g = true := by
  rw [conflictB, if_pos hn]; exact hl

theorem registerGauge_ok {st : List GaugeModel} {g : GaugeModel}
    (h : ∀ x ∈ st, conflictB x g = false) : registerGauge st g = Except.ok (st ++ [g]) := by
  rw [registerGauge, if_neg]
  intro hany
  rcases List.any_eq_true.mp hany with ⟨x, hx, hcx⟩
  rw [h x hx] at hcx
  cases hcx

theorem registerGauge_error {st : List GaugeModel} {g x : GaugeModel}
    (hx : x ∈ st) (hc : conflictB x g = true) :
    registerGauge st g = Except.error (PErr.duplicateMetric g.name) := by
  rw [registerGauge, if_pos (List.any_eq_true.mpr ⟨x, hx, hc⟩)]

theorem registerList_ok {gs : List GaugeModel} :
    ∀ {st : List GaugeModel},
    (∀ x ∈ st, ∀ y ∈ gs, conflictB x y = false) →
    gs.Pairwise (fun a b => conflictB a b = false) →
    registerList st gs = Except.ok (st ++ gs) := by
  induction gs with
  | nil => intro st _ _; rw [registerList, List.append_nil]
  | cons g t ih =>
    intro st hst hpw
    rw [registerList, registerGauge_ok (fun x hx => hst x hx g (by simp))]
    dsimp only
    rw [List.pairwise_cons] at hpw
    have hstep : ∀ x ∈ st ++ [g], ∀ y ∈ t, conflictB x y = false := by
      intro x hx y hy
      rcases List.mem_append.mp hx with hx | hx
      · exact hst x hx y (by simp [hy])
      · rcases List.mem_singleton.mp hx with rfl
        exact hpw.1 y hy
    rw [ih hstep hpw.2, List.append_assoc]
    rfl

theorem registerAll_append (L : LabelMap) (st : List GaugeModel)
    (xs ys : List DockerContainerStats) :
    registerAll L st (xs ++ ys) =
      match registerAll L st xs with
      | Except.error e => Except.error e
      | Except.ok st2 => registerAll L st2 ys := by
  induction xs generalizing st with
  | nil => rfl
  | cons r t ih =>
    rw [List.cons_append, registerAll, registerAll]
    cases gauges_for_container r L with
    | error e => rfl
    | ok gs =>
      dsimp only
      cases registerList st gs with
      | error e => rfl
      | ok st2 => exact ih st2

theorem parse_netio_eq_of_split {s a b : List Char} {x y : FVal}
    (pre : List (List Char)) (hsplit : splitPairSep s = pre ++ [a, b])
    (ha : parse_io_str a = Except.ok x) (hb : parse_io_str b = Except.ok y) :
    parse_netio_str s = Except.ok (x, y) := by
  unfold parse_netio_str
  rw [hsplit, List.reverse_append]
  simp only [List.reverse_cons, List.reverse_nil, List.nil_append, List.cons_append]
  rw [ha, hb]

theorem parse_blockio_eq_of_split {s a b : List Char} {x y : FVal}
    (pre : List (List Char)) (hsplit : splitPairSep s = pre ++ [a, b])
    (ha : parse_io_str a = Except.ok x) (hb : parse_io_str b = Except.ok y) :
    parse_blockio_str s = Except.ok (x, y) := by
  unfold parse_blockio_str
  rw [hsplit, List.reverse_append]
  simp only [List.reverse_cons, List.reverse_nil, List.nil_append, List.cons_append]
  rw [ha, hb]

theorem parse_mem_usage_eq_of_split {s a b : List Char} {x y : FVal}
    (pre : List (List Char)) (hsplit : splitPairSep s = pre ++ [a, b])
    (ha : parse_io_str a = Except.ok x) (hb : parse_io_str b = Except.ok y) :
    parse_mem_usage_str s = Except.ok (x, y) := by
  unfold parse_mem_usage_str
  rw [hsplit, List.reverse_append]
  simp only [List.reverse_cons, List.reverse_nil, List.nil_append, List.cons_append]
  rw [ha, hb]

theorem parse_pair_error_of_single {s a : List Char} (hsplit : splitPairSep s = [a]) :
    parse_netio_str s = Except.error (PErr.badNetio s) ∧
    parse_blockio_str s = Except.error (PErr.badBlockio s) ∧
    parse_mem_usage_str s = Except.error (PErr.badMemUsage s) := by
  refine ⟨?_, ?_, ?_⟩
  · unfold parse_netio_str
    rw [hsplit]
    rfl
  · unfold parse_blockio_str
    rw [hsplit]
    rfl
  · unfold parse_mem_usage_str
    rw [hsplit]
    rfl

theorem gauges_for_container_eq (stat : DockerContainerStats) (L : LabelMap)
    {v mu ml ni no br bw : FVal}
    (hcpu : parseF64 stat.cpu_perc.dropLast = some v)
    (hmem : parse_mem_usage_str stat.mem_usage = Except.ok (mu, ml))
    (hnet : parse_netio_str stat.net_io = Except.ok (ni, no))
    (hblk : parse_blockio_str stat.block_io = Except.ok (br, bw)) :
    gauges_for_container stat L = Except.ok (mkGaugeList stat L v mu ml ni no br bw) := by
  unfold gauges_for_container percent_gauge
  rw [hcpu, hmem, hnet, hblk]
  rfl

theorem gauges_for_container_inv {stat : DockerContainerStats} {L : LabelMap}
    {gs : List GaugeModel} (h : gauges_for_container stat L = Except.ok gs) :
    ∃ v mu ml ni no br bw,
      parseF64 stat.cpu_perc.dropLast = some v ∧
      parse_mem_usage_str stat.mem_usage = Except.ok (mu, ml) ∧
      parse_netio_str stat.net_io = Except.ok (ni, no) ∧
      parse_blockio_str stat.block_io = Except.ok (br, bw) ∧
      gs = mkGaugeList stat L v mu ml ni no br bw := by
  unfold gauges_for_container percent_gauge at h
  cases hcpu : parseF64 stat.cpu_perc.dropLast with
  | none => rw [hcpu] at h; cases h
  | some v =>
    rw [hcpu] at h
    cases hmem : parse_mem_usage_str stat.mem_usage with
    | error e => rw [hmem] at h; cases h
    | ok p1 =>
      rw [hmem] at h
      cases hnet : parse_netio_str stat.net_io with
      | error e => rw [hnet] at h; cases h
      | ok p2 =>
        rw [hnet] at h
        cases hblk : parse_blockio_str stat.block_io with
        | error e => rw [hblk] at h; cases h
        | ok p3 =>
          rw [hblk] at h
          injection h with h2
          exact ⟨v, p1.1, p1.2, p2.1, p2.2, p3.1, p3.2, rfl, rfl, rfl, rfl, h2.symm⟩

theorem mkGaugeList_labels {stat : DockerContainerStats} {L : LabelMap}
    {v mu ml ni no br bw : FVal} :
    ∀ g ∈ mkGaugeList stat L v mu ml ni no br bw,
      g.labels = buildLabels L stat.container := by
  intro g hg
  simp only [mkGaugeList, List.mem_cons, List.not_mem_nil, or_false] at hg
  rcases hg with rfl | rfl | rfl | rfl | rfl | rfl | rfl
  all_goals rfl

theorem mkGaugeList_map_name {stat : DockerContainerStats} {L : LabelMap}
    {v mu ml ni no br bw : FVal} :
    (mkGaugeList stat L v mu ml ni no br bw).map (fun g => g.name) =
      [chars "container_cpu_usage", chars "container_memory_usage_bytes",
       chars "container_memory_limit_bytes", chars "container_network_input_bytes",
       chars "container_network_output_bytes", chars "container_block_read_bytes",
       chars "container_block_write_bytes"] := by
  rfl

theorem mkGaugeList_pairwise {stat : DockerContainerStats} {L : LabelMap}
    {v mu ml ni no br bw : FVal} :
    (mkGaugeList stat L v mu ml ni no br bw).Pairwise
      (fun a b => conflictB a b = false) := by
  have hp : ([chars "container_cpu_usage", chars "container_memory_usage_bytes",
      chars "container_memory_limit_bytes", chars "container_network_input_bytes",
      chars "container_network_output_bytes", chars "container_block_read_bytes",
      chars "container_block_write_bytes"] :
      List (List Char)).Pairwise (fun a b => a ≠ b) := by decide
  rw [← @mkGaugeList_map_name stat L v mu ml ni no br bw] at hp
  exact (List.pairwise_map.mp hp).imp fun hne => conflictB_of_name_ne hne

theorem mkGaugeList_cross_false {r r2 : DockerContainerStats} {L : LabelMap}
    {v mu ml ni no br bw v2 mu2 ml2 ni2 no2 br2 bw2 : FVal}
    (hlab : sameLabelSet (buildLabels L r.container) (buildLabels L r2.container) = false) :
    ∀ x ∈ mkGaugeList r L v mu ml ni no br bw,
    ∀ y ∈ mkGaugeList r2 L v2 mu2 ml2 ni2 no2 br2 bw2, conflictB x y = false := by
  intro x hx y hy
  apply conflictB_of_labels_ne
  rw [mkGaugeList_labels x hx, mkGaugeList_labels y hy]
  exact hlab

theorem gauges_ok_of_registerAll_ok {L : LabelMap} {stats : List DockerContainerStats}
    {st st2 : List GaugeModel} (h : registerAll L st stats = Except.ok st2) :
    ∀ r ∈ stats, (gauges_for_container r L).isOk = true := by
  induction stats generalizing st with
  | nil => intro r hr; cases hr
  | cons q t ih =>
    intro r hr
    unfold registerAll at h
    cases hq : gauges_for_container q L with
    | error e => rw [hq] at h; cases h
    | ok gs =>
      rw [hq] at h
      dsimp only at h
      rcases List.mem_cons.mp hr with rfl | hr
      · rw [hq]; rfl
      · cases hreg : registerList st gs with
        | error e => rw [hreg] at h; cases h
        | ok stx =>
          rw [hreg] at h
          exact ih h r hr

/-! ### Claim theorems -/

/-- C2: for every finite value `v` and every unit in the fixed table
(`B` with multiplier 1, `kB/MB/GB/TB` with the powers of 1000,
`KiB/MiB/GiB/TiB` with the powers of 1024), `convert_to_bytes` succeeds and
returns `v` times the table multiplier; for every unit string missing from
the table — including the case variant "KB" — it fails with the
unknown-unit error, which carries the offending unit string verbatim. -/
theorem claim_C2_convert (v : ℚ) (u : List Char) :
    (∀ r : ℚ, UNIT_MAP u = some r →
      convert_to_bytes (FVal.finite v) u = Except.ok (FVal.finite (v * r))) ∧
    (UNIT_MAP u = none →
      ∀ w : FVal, convert_to_bytes w u = Except.error (PErr.unknownUnit u)) ∧
    (UNIT_MAP (chars "B") = some 1 ∧ UNIT_MAP (chars "kB") = some 1000 ∧
     UNIT_MAP (chars "MB") = some 1000000 ∧
     UNIT_MAP (chars "GB") = some 1000000000 ∧
     UNIT_MAP (chars "TB") = some 1000000000000 ∧
     UNIT_MAP (chars "KiB") = some 1024 ∧
     UNIT_MAP (chars "MiB") = some 1048576 ∧
     UNIT_MAP (chars "GiB") = some 1073741824 ∧
     UNIT_MAP (chars "TiB") = some 1099511627776 ∧
     UNIT_MAP (chars "KB") = none ∧ UNIT_MAP (chars "kb") = none) := by
  refine ⟨?_, ?_, by decide⟩
  · intro r hr
    unfold convert_to_bytes
    rw [hr]
    show Except.ok (FVal.finite (qmul r v)) = _
    rw [qmul_eq_mul, mul_comm]
  · intro hu w
    unfold convert_to_bytes
    rw [hu]

/-- Witness for C2 at concrete inputs: converting 3 MiB succeeds with
3 * 1048576 and converting with unit "KB" fails with the unknown-unit
error naming "KB". -/
theorem claim_C2_convert_witness :
    convert_to_bytes (FVal.finite 3) (chars "MiB") =
      Except.ok (FVal.finite (3 * 1048576)) ∧
    convert_to_bytes (FVal.finite 3) (chars "KB") =
      Except.error (PErr.unknownUnit (chars "KB")) := by
  constructor
  · exact (claim_C2_convert 3 (chars "MiB")).1 1048576 (by decide)
  · exact (claim_C2_convert 3 (chars "KB")).2.1 (by decide) (FVal.finite 3)

/-- C8: round-trip — for every supported unit `u` (all of whose characters
are alphabetic) with table multiplier `r`, and every numeral `n` (nonempty,
containing no alphabetic character) parsing to the finite value `v`,
`parse_io_str` on the concatenation `n ++ u` isolates `u` as the longest
trailing alphabetic run and succeeds with `v * r`; this covers zero,
fractional and large renderings of `v`. -/
theorem claim_C8_roundtrip (n u : List Char) (v r : ℚ)
    (hna : ∀ c ∈ n, c.isAlpha = false)
    (hv : parseF64 n = some (FVal.finite v))
    (hr : UNIT_MAP u = some r) (hua : ∀ c ∈ u, c.isAlpha = true) :
    parse_io_str (n ++ u) = Except.ok (FVal.finite (v * r)) := by
  have hunit : ((n ++ u).reverse.takeWhile Char.isAlpha).reverse = u := by
    rw [List.reverse_append,
      takeWhile_append_all _ (fun c hc => hua c (List.mem_reverse.mp hc)),
      takeWhile_eq_nil_of_all_false (fun c hc => hna c (List.mem_reverse.mp hc)),
      List.append_nil, List.reverse_reverse]
  have hval : (n ++ u).take ((n ++ u).length - u.length) = n := by
    rw [List.length_append, Nat.add_sub_cancel, List.take_left]
  unfold parse_io_str
  rw [hunit]
  dsimp only
  rw [hval, hv]
  unfold convert_to_bytes
  rw [hr]
  show Except.ok (FVal.finite (qmul r v)) = _
  rw [qmul_eq_mul, mul_comm]

/-- Witness for C8 at three concrete renderings: zero ("0B"), a fractional
value ("12.5MiB") and a large value ("2000000000000TiB"). -/
theorem claim_C8_roundtrip_witness :
    parse_io_str (chars "0" ++ chars "B") = Except.ok (FVal.finite (0 * 1)) ∧
    parse_io_str (chars "12.5" ++ chars "MiB") =
      Except.ok (FVal.finite (mkRat 25 2 * 1048576)) ∧
    parse_io_str (chars "2000000000000" ++ chars "TiB") =
      Except.ok (FVal.finite (2000000000000 * 1099511627776)) := by
  refine ⟨?_, ?_, ?_⟩
  · exact claim_C8_roundtrip (chars "0") (chars "B") 0 1 (by decide)
      (by decide) (by decide) (by decide)
  · exact claim_C8_roundtrip (chars "12.5") (chars "MiB") (mkRat 25 2) 1048576
      (by decide) (by decide) (by decide) (by decide)
  · exact claim_C8_roundtrip (chars "2000000000000") (chars "TiB")
      2000000000000 1099511627776 (by decide) (by decide) (by decide)
      (by decide)

/-- C3 counterexample: percent parsing does not require a trailing percent
sign and does not reject negative values.  "12.5x" — the claim's own
example of an input that must fail — is accepted with value 12.5, and
"-3%" is accepted with a negative value, because `String::pop` removes the
last character unconditionally before the float parse. -/
theorem claim_C3_counterexample :
    percent_gauge (chars "container_cpu_usage") (chars "12.5x")
        (chars "CPU usage percentage for container") (chars "web") [] =
      Except.ok (mkGauge (chars "container_cpu_usage")
        (chars "CPU usage percentage for container") (FVal.finite (mkRat 25 2))
        (chars "web") []) ∧
    percent_gauge (chars "container_cpu_usage") (chars "-3%")
        (chars "CPU usage percentage for container") (chars "web") [] =
      Except.ok (mkGauge (chars "container_cpu_usage")
        (chars "CPU usage percentage for container") (FVal.finite (mkRat (-3) 1))
        (chars "web") []) :=
  ⟨by decide, by decide⟩

/-- C3 (amended): percent parsing removes the last character of the raw
string unconditionally — whatever that character is — and succeeds exactly
when the remainder parses under the f64 grammar (which also admits
negative and non-finite values), returning that value unscaled in the
gauge; otherwise it fails with the invalid-float error. -/
theorem claim_C3_percent (name s help cn : List Char) (L : LabelMap) :
    (∀ v : FVal, parseF64 s.dropLast = some v →
      percent_gauge name s help cn L = Except.ok (mkGauge name help v cn L)) ∧
    (parseF64 s.dropLast = none →
      percent_gauge name s help cn L = Except.error PErr.invalidFloat) := by
  constructor
  · intro v hv
    unfold percent_gauge
    rw [hv]
    rfl
  · intro hv
    unfold percent_gauge
    rw [hv]

/-- Witness for C3 at the concrete inputs of the spec: "100.00%" parses to
100 and "abc%" fails with the invalid-float error. -/
theorem claim_C3_percent_witness :
    percent_gauge (chars "n") (chars "100.00%") (chars "h") (chars "c") [] =
      Except.ok (mkGauge (chars "n") (chars "h") (FVal.finite 100) (chars "c") []) ∧
    percent_gauge (chars "n") (chars "abc%") (chars "h") (chars "c") [] =
      Except.error PErr.invalidFloat := by
  constructor
  · exact (claim_C3_percent (chars "n") (chars "100.00%") (chars "h") (chars "c") []).1
      (FVal.finite 100) (by decide)
  · exact (claim_C3_percent (chars "n") (chars "abc%") (chars "h") (chars "c") []).2
      (by decide)

/-- C4 counterexample: an input whose split yields three segments does NOT
fail — the parsers take the last two segments and ignore the first, so
"1kB / 2kB / 3kB" succeeds with (2000, 3000) where the claim demands a
malformed-pair failure. -/
theorem claim_C4_counterexample :
    splitPairSep (chars "1kB / 2kB / 3kB") =
      [chars "1kB", chars "2kB", chars "3kB"] ∧
    parse_netio_str (chars "1kB / 2kB / 3kB") =
      Except.ok (FVal.finite 2000, FVal.finite 3000) ∧
    parse_blockio_str (chars "1kB / 2kB / 3kB") =
      Except.ok (FVal.finite 2000, FVal.finite 3000) ∧
    parse_mem_usage_str (chars "1kB / 2kB / 3kB") =
      Except.ok (FVal.finite 2000, FVal.finite 3000) :=
  ⟨by decide, by decide, by decide, by decide⟩

/-- C4 (amended): the three pair parsers fail with their malformed-pair
errors exactly when splitting on " / " yields a single segment (the
separator is absent); when the split yields two or more segments they
parse the LAST two segments — ignoring any earlier ones — and succeed
whenever those two parse as sizes. -/
theorem claim_C4_pair_split (s : List Char) :
    (∀ a, splitPairSep s = [a] →
      parse_netio_str s = Except.error (PErr.badNetio s) ∧
      parse_blockio_str s = Except.error (PErr.badBlockio s) ∧
      parse_mem_usage_str s = Except.error (PErr.badMemUsage s)) ∧
    (∀ pre a b x y, splitPairSep s = pre ++ [a, b] →
      parse_io_str a = Except.ok x → parse_io_str b = Except.ok y →
      parse_netio_str s = Except.ok (x, y) ∧
      parse_blockio_str s = Except.ok (x, y) ∧
      parse_mem_usage_str s = Except.ok (x, y)) := by
  constructor
  · intro a h
    exact parse_pair_error_of_single h
  · intro pre a b x y hs ha hb
    exact ⟨parse_netio_eq_of_split pre hs ha hb,
      parse_blockio_eq_of_split pre hs ha hb,
      parse_mem_usage_eq_of_split pre hs ha hb⟩

/-- Witness for C4 at the spec's own inputs: "bad" (no separator) fails
with the malformed-pair error for all three parsers, and "1kB / 2kB"
succeeds. -/
theorem claim_C4_pair_split_witness :
    (parse_netio_str (chars "bad") = Except.error (PErr.badNetio (chars "bad")) ∧
     parse_blockio_str (chars "bad") = Except.error (PErr.badBlockio (chars "bad")) ∧
     parse_mem_usage_str (chars "bad") = Except.error (PErr.badMemUsage (chars "bad"))) ∧
    parse_netio_str (chars "1kB / 2kB") = Except.ok (FVal.finite 1000, FVal.finite 2000) := by
  constructor
  · exact (claim_C4_pair_split (chars "bad")).1 (chars "bad") (by decide)
  · exact ((claim_C4_pair_split (chars "1kB / 2kB")).2 [] (chars "1kB") (chars "2kB")
      (FVal.finite 1000) (FVal.finite 2000) (by decide) (by decide) (by decide)).1

/-- C9 counterexample: on an input with three segments all three parsers
succeed with the identical pair (2000, 3000), but that pair is NOT (bytes
of the first textual segment, bytes of the second): the first segment
"1kB" is worth 1000. -/
theorem claim_C9_counterexample :
    parse_netio_str (chars "1kB / 2kB / 3kB") =
      Except.ok (FVal.finite 2000, FVal.finite 3000) ∧
    parse_io_str (chars "1kB") = Except.ok (FVal.finite 1000) ∧
    parse_io_str (chars "2kB") = Except.ok (FVal.finite 2000) ∧
    (Except.ok (FVal.finite 2000, FVal.finite 3000) :
        Except PErr (FVal × FVal)) ≠
      Except.ok (FVal.finite 1000, FVal.finite 2000) :=
  ⟨by decide, by decide, by decide, by decide⟩

/-- Every input drives the three pair parsers into the same branch: either
all three succeed with one common pair, or all three fail. -/
theorem pair_parsers_shape (s : List Char) :
    (∃ x y, parse_netio_str s = Except.ok (x, y) ∧
            parse_blockio_str s = Except.ok (x, y) ∧
            parse_mem_usage_str s = Except.ok (x, y)) ∨
    (∃ e1 e2 e3, parse_netio_str s = Except.error e1 ∧
                 parse_blockio_str s = Except.error e2 ∧
                 parse_mem_usage_str s = Except.error e3) := by
  unfold parse_netio_str parse_blockio_str parse_mem_usage_str
  cases hrev : (splitPairSep s).reverse with
  | nil => exact Or.inr ⟨_, _, _, rfl, rfl, rfl⟩
  | cons o tl =>
    cases tl with
    | nil => exact Or.inr ⟨_, _, _, rfl, rfl, rfl⟩
    | cons i rest =>
      dsimp only
      cases hi : parse_io_str i with
      | error e => exact Or.inr ⟨_, _, _, rfl, rfl, rfl⟩
      | ok x =>
        cases ho : parse_io_str o with
        | error e => exact Or.inr ⟨_, _, _, rfl, rfl, rfl⟩
        | ok y => exact Or.inl ⟨x, y, rfl, rfl, rfl⟩

/-- C9 (amended): the three composite-pair parsers are extensionally equal
up to the error payload: on every input they all succeed or fail together,
and on success all three return the identical pair — the bytes of the
second-to-last and of the last segment, which are the two textual segments
whenever the split yields exactly two. -/
theorem claim_C9_parsers_agree (s : List Char) :
    ((parse_netio_str s).isOk = (parse_blockio_str s).isOk ∧
     (parse_netio_str s).isOk = (parse_mem_usage_str s).isOk) ∧
    (∀ p : FVal × FVal,
      (parse_netio_str s = Except.ok p ↔ parse_blockio_str s = Except.ok p) ∧
      (parse_netio_str s = Except.ok p ↔ parse_mem_usage_str s = Except.ok p)) ∧
    (∀ pre a b x y, splitPairSep s = pre ++ [a, b] →
      parse_io_str a = Except.ok x → parse_io_str b = Except.ok y →
      parse_netio_str s = Except.ok (x, y) ∧
      parse_blockio_str s = Except.ok (x, y) ∧
      parse_mem_usage_str s = Except.ok (x, y)) := by
  refine ⟨?_, ?_, ?_⟩
  · rcases pair_parsers_shape s with ⟨x, y, h1, h2, h3⟩ | ⟨e1, e2, e3, h1, h2, h3⟩
    · exact ⟨by rw [h1, h2], by rw [h1, h3]⟩
    · exact ⟨by rw [h1, h2]; rfl, by rw [h1, h3]; rfl⟩
  · intro p
    rcases pair_parsers_shape s with ⟨x, y, h1, h2, h3⟩ | ⟨e1, e2, e3, h1, h2, h3⟩
    · exact ⟨by rw [h1, h2], by rw [h1, h3]⟩
    · constructor
      · rw [h1, h2]
        exact ⟨(fun h => by cases h), (fun h => by cases h)⟩
      · rw [h1, h3]
        exact ⟨(fun h => by cases h), (fun h => by cases h)⟩
  · intro pre a b x y hs ha hb
    exact ⟨parse_netio_eq_of_split pre hs ha hb,
      parse_blockio_eq_of_split pre hs ha hb,
      parse_mem_usage_eq_of_split pre hs ha hb⟩

/-- Witness for C9 at concrete inputs: agreement of success on
"1kB / 2kB" and agreement of failure on "bad". -/
theorem claim_C9_parsers_agree_witness :
    ((parse_netio_str (chars "1kB / 2kB")).isOk =
      (parse_mem_usage_str (chars "1kB / 2kB")).isOk) ∧
    ((parse_netio_str (chars "bad")).isOk = (parse_blockio_str (chars "bad")).isOk) ∧
    (parse_netio_str (chars "1kB / 2kB") = Except.ok (FVal.finite 1000, FVal.finite 2000) ↔
      parse_mem_usage_str (chars "1kB / 2kB") = Except.ok (FVal.finite 1000, FVal.finite 2000)) :=
  ⟨(claim_C9_parsers_agree (chars "1kB / 2kB")).1.2,
   (claim_C9_parsers_agree (chars "bad")).1.1,
   ((claim_C9_parsers_agree (chars "1kB / 2kB")).2.1
     (FVal.finite 1000, FVal.finite 2000)).2⟩

/-- C1 counterexample: for net_io "1.2kB / 3MiB" the parser returns the
pair in TEXTUAL order, (1200, 3145728), not the reversed (3145728, 1200)
the claim requires; and for the record with net_io "1kB / 2kB" the
container_network_input_bytes gauge carries 1000 — the byte value of the
FIRST textual segment — where the claim says it carries the second
(2000). -/
theorem claim_C1_counterexample :
    parse_netio_str (chars "1.2kB / 3MiB") =
      Except.ok (FVal.finite 1200, FVal.finite 3145728) ∧
    parse_netio_str (chars "1.2kB / 3MiB") ≠
      Except.ok (FVal.finite 3145728, FVal.finite 1200) ∧
    (gauges_for_container sampleWeb []).toOption.map
        (List.map (fun g => (g.name, g.value))) =
      some [(chars "container_cpu_usage", FVal.finite (mkRat 25 2)),
            (chars "container_memory_usage_bytes", FVal.finite 104857600),
            (chars "container_memory_limit_bytes", FVal.finite 209715200),
            (chars "container_network_input_bytes", FVal.finite 1000),
            (chars "container_network_output_bytes", FVal.finite 2000),
            (chars "container_block_read_bytes", FVal.finite 3000),
            (chars "container_block_write_bytes", FVal.finite 4000)] :=
  ⟨by decide, by decide, by decide⟩

/-- C1 (amended): for every net_io field splitting as "R / T" with both
segments parsing, the pair parser returns (received, transmitted) in
TEXTUAL order, so container_network_input_bytes carries the byte value of
the first textual segment and container_network_output_bytes that of the
second; block_io "read / write" follows the same textual-order convention
into container_block_read_bytes and container_block_write_bytes. -/
theorem claim_C1_pair_order (stat : DockerContainerStats) (L : LabelMap)
    (a b c d : List Char) (x y z w v mu ml : FVal)
    (hnet : splitPairSep stat.net_io = [a, b])
    (hx : parse_io_str a = Except.ok x) (hy : parse_io_str b = Except.ok y)
    (hblk : splitPairSep stat.block_io = [c, d])
    (hz : parse_io_str c = Except.ok z) (hw : parse_io_str d = Except.ok w)
    (hcpu : parseF64 stat.cpu_perc.dropLast = some v)
    (hmem : parse_mem_usage_str stat.mem_usage = Except.ok (mu, ml)) :
    parse_netio_str stat.net_io = Except.ok (x, y) ∧
    parse_blockio_str stat.block_io = Except.ok (z, w) ∧
    gauges_for_container stat L =
      Except.ok (mkGaugeList stat L v mu ml x y z w) := by
  have h1 : parse_netio_str stat.net_io = Except.ok (x, y) :=
    parse_netio_eq_of_split [] hnet hx hy
  have h2 : parse_blockio_str stat.block_io = Except.ok (z, w) :=
    parse_blockio_eq_of_split [] hblk hz hw
  exact ⟨h1, h2, gauges_for_container_eq stat L hcpu hmem h1 h2⟩

/-- Witness for C1 at the concrete record `sampleWeb` (net_io
"1kB / 2kB", block_io "3kB / 4kB"): input/read gauges get the first
segments (1000 and 3000), output/write gauges the second (2000 and
4000). -/
theorem claim_C1_pair_order_witness :
    gauges_for_container sampleWeb [] = Except.ok sampleWebGauges :=
  (claim_C1_pair_order sampleWeb [] (chars "1kB") (chars "2kB") (chars "3kB")
    (chars "4kB") (FVal.finite 1000) (FVal.finite 2000) (FVal.finite 3000)
    (FVal.finite 4000) (FVal.finite (mkRat 25 2)) (FVal.finite 104857600)
    (FVal.finite 209715200) (by decide) (by decide) (by decide) (by decide)
    (by decide) (by decide) (by decide) (by decide)).2.2

/-- C5: for every mem_usage field splitting as "U / L" with both segments
parsing, the pair parser returns (usage, limit) in textual order — NOT
reversed — and derivation emits container_memory_usage_bytes with the byte
value of the first textual segment and container_memory_limit_bytes with
that of the second. -/
theorem claim_C5_mem_order (stat : DockerContainerStats) (L : LabelMap)
    (a b : List Char) (u l v ni no br bw : FVal)
    (hmem : splitPairSep stat.mem_usage = [a, b])
    (hu : parse_io_str a = Except.ok u) (hl : parse_io_str b = Except.ok l)
    (hcpu : parseF64 stat.cpu_perc.dropLast = some v)
    (hnet : parse_netio_str stat.net_io = Except.ok (ni, no))
    (hblk : parse_blockio_str stat.block_io = Except.ok (br, bw)) :
    parse_mem_usage_str stat.mem_usage = Except.ok (u, l) ∧
    gauges_for_container stat L =
      Except.ok (mkGaugeList stat L v u l ni no br bw) := by
  have h1 : parse_mem_usage_str stat.mem_usage = Except.ok (u, l) :=
    parse_mem_usage_eq_of_split [] hmem hu hl
  exact ⟨h1, gauges_for_container_eq stat L hcpu h1 hnet hblk⟩

/-- Witness for C5 at the concrete record `sampleDb` (mem_usage
"1kB / 2kB"): usage gauge 1000 from the first segment, limit gauge 2000
from the second. -/
theorem claim_C5_mem_order_witness :
    parse_mem_usage_str (chars "1kB / 2kB") =
      Except.ok (FVal.finite 1000, FVal.finite 2000) ∧
    gauges_for_container sampleDb [] = Except.ok sampleDbGauges := by
  have h := claim_C5_mem_order sampleDb [] (chars "1kB") (chars "2kB")
    (FVal.finite 1000) (FVal.finite 2000) (FVal.finite 0) (FVal.finite 3000)
    (FVal.finite 4000) (FVal.finite 5000) (FVal.finite 6000) (by decide)
    (by decide) (by decide) (by decide) (by decide) (by decide)
  exact ⟨h.1, h.2⟩

/-- C10: the container label is inserted first and the user labels are
inserted into the same map afterwards, so when the user label set (whose
keys are distinct, as a HashMap's keys are) contains the key "container"
with value `w`, EVERY gauge derived for the record carries `w` as its
"container" label instead of the record's container name. -/
theorem claim_C10_container_override (stat : DockerContainerStats) (L : LabelMap)
    (w : List Char) (gs : List GaugeModel)
    (hnd : (L.map Prod.fst).Nodup) (hmem : (chars "container", w) ∈ L)
    (hok : gauges_for_container stat L = Except.ok gs) :
    ∀ g ∈ gs, lookupKey (chars "container") g.labels = some w := by
  rcases gauges_for_container_inv hok with ⟨v, mu, ml, ni, no, br, bw, _, _, _, _, rfl⟩
  intro g hg
  rw [mkGaugeList_labels g hg, buildLabels]
  exact lookupKey_foldl_of_mem L hnd hmem _

/-- Witness for C10: with user labels {container ↦ override}, every one of
the seven gauges derived for `sampleWeb` answers "override" for the
container key. -/
theorem claim_C10_container_override_witness :
    (overrideGauges.all fun g =>
      lookupKey (chars "container") g.labels == some (chars "override")) = true := by
  rw [List.all_eq_true]
  intro g hg
  exact beq_iff_eq.mpr
    (claim_C10_container_override sampleWeb overrideLabels (chars "override")
      overrideGauges (by decide) (by decide) (by decide) g hg)

/-- C6: if any record of the scrape fails to parse, the whole scrape fails
and no output text is produced.  First part: when every record before the
failing one registers cleanly, the scrape fails with exactly the
originating parse error of the failing record (records after it are never
reached).  Second part: the scrape never returns output when any record of
the batch fails to parse — there is no partial result. -/
theorem claim_C6_fail_fast (L : LabelMap) :
    (∀ pre bad post st e,
      registerAll L [] pre = Except.ok st →
      gauges_for_container bad L = Except.error e →
      get_prometheus_format (pre ++ bad :: post) L = Except.error e) ∧
    (∀ stats, (∃ r ∈ stats, (gauges_for_container r L).isOk = false) →
      (get_prometheus_format stats L).isOk = false) := by
  constructor
  · intro pre bad post st e hpre hbad
    unfold get_prometheus_format
    rw [registerAll_append, hpre]
    dsimp only
    unfold registerAll
    rw [hbad]
  · intro stats hex
    rcases hex with ⟨r, hr, hfail⟩
    cases hfmt : get_prometheus_format stats L with
    | error e => rfl
    | ok out =>
      exfalso
      unfold get_prometheus_format at hfmt
      cases hall : registerAll L [] stats with
      | error e => rw [hall] at hfmt; cases hfmt
      | ok st =>
        rw [gauges_ok_of_registerAll_ok hall r hr] at hfail
        cases hfail

/-- Witness for C6: a batch holding the healthy `sampleWeb` followed by
`sampleBad` (net_io "bad") fails as a whole with the bad-netio parse
error of the second record. -/
theorem claim_C6_fail_fast_witness :
    get_prometheus_format [sampleWeb, sampleBad] [] =
      Except.error (PErr.badNetio (chars "bad")) :=
  (claim_C6_fail_fast []).1 [sampleWeb] sampleBad [] sampleWebGauges
    (PErr.badNetio (chars "bad")) (by decide) (by decide)

theorem registerList_error_head {st : List GaugeModel} {g : GaugeModel}
    {gs : List GaugeModel} {e : PErr} (h : registerGauge st g = Except.error e) :
    registerList st (g :: gs) = Except.error e := by
  unfold registerList
  rw [h]

/-- C7: rendering collides exactly on (metric name, label set) pairs.
For two parseable records with the SAME container name the whole render
fails with the duplicate-metric error (hit first on container_cpu_usage,
the first gauge registered for the second record); for two parseable
records with DIFFERENT container names — the user labels not overriding
the "container" key — every second-record gauge differs from its
same-named predecessor in the container label value, so all fourteen
samples register and the render succeeds. -/
theorem claim_C7_duplicate (L : LabelMap) (r r2 : DockerContainerStats)
    (gs gs2 : List GaugeModel)
    (hok : gauges_for_container r L = Except.ok gs)
    (hok2 : gauges_for_container r2 L = Except.ok gs2) :
    (r.container = r2.container →
      get_prometheus_format [r, r2] L =
        Except.error (PErr.duplicateMetric (chars "container_cpu_usage"))) ∧
    (r.container ≠ r2.container → (∀ p ∈ L, p.1 ≠ chars "container") →
      (get_prometheus_format [r, r2] L).isOk = true) := by
  rcases gauges_for_container_inv hok with
    ⟨v, mu, ml, ni, no, br, bw, hc1, hm1, hn1, hb1, rfl⟩
  rcases gauges_for_container_inv hok2 with
    ⟨v2, mu2, ml2, ni2, no2, br2, bw2, hc2, hm2, hn2, hb2, rfl⟩
  have hnil : ∀ x ∈ ([] : List GaugeModel),
      ∀ y ∈ mkGaugeList r L v mu ml ni no br bw, conflictB x y = false :=
    fun x hx => absurd hx (List.not_mem_nil x)
  have hreg1 : registerList [] (mkGaugeList r L v mu ml ni no br bw) =
      Except.ok (mkGaugeList r L v mu ml ni no br bw) := by
    have h0 := registerList_ok hnil mkGaugeList_pairwise
    rw [List.nil_append] at h0
    exact h0
  constructor
  · intro hcont
    have hconf : conflictB
        (mkGauge (chars "container_cpu_usage")
          (chars "CPU usage percentage for container") v r.container L)
        (mkGauge (chars "container_cpu_usage")
          (chars "CPU usage percentage for container") v2 r2.container L) = true := by
      refine conflictB_eq_true (by rfl) ?_
      show sameLabelSet (buildLabels L r.container) (buildLabels L r2.container) = true
      rw [hcont]
      exact sameLabelSet_self (keysND_buildLabels L r2.container)
    have hmem0 : (mkGauge (chars "container_cpu_usage")
        (chars "CPU usage percentage for container") v r.container L)
        ∈ mkGaugeList r L v mu ml ni no br bw := by
      rw [mkGaugeList]
      exact List.mem_cons_self _ _
    have herr2 : registerList (mkGaugeList r L v mu ml ni no br bw)
        (mkGaugeList r2 L v2 mu2 ml2 ni2 no2 br2 bw2) =
        Except.error (PErr.duplicateMetric (replaceDash (chars "container_cpu_usage"))) :=
      registerList_error_head (registerGauge_error hmem0 hconf)
    have hAll : registerAll L [] [r, r2] =
        Except.error (PErr.duplicateMetric (replaceDash (chars "container_cpu_usage"))) := by
      unfold registerAll
      rw [hok]
      dsimp only
      rw [hreg1]
      dsimp only
      unfold registerAll
      rw [hok2]
      dsimp only
      rw [herr2]
    unfold get_prometheus_format
    rw [hAll]
    rfl
  · intro hcont hL
    have hlabne := sameLabelSet_buildLabels_ne L hL hcont
    have hcross : ∀ x ∈ mkGaugeList r L v mu ml ni no br bw,
        ∀ y ∈ mkGaugeList r2 L v2 mu2 ml2 ni2 no2 br2 bw2, conflictB x y = false :=
      mkGaugeList_cross_false hlabne
    have hreg2 : registerList (mkGaugeList r L v mu ml ni no br bw)
        (mkGaugeList r2 L v2 mu2 ml2 ni2 no2 br2 bw2) =
        Except.ok (mkGaugeList r L v mu ml ni no br bw ++
          mkGaugeList r2 L v2 mu2 ml2 ni2 no2 br2 bw2) :=
      registerList_ok hcross mkGaugeList_pairwise
    have hAll : registerAll L [] [r, r2] =
        Except.ok (mkGaugeList r L v mu ml ni no br bw ++
          mkGaugeList r2 L v2 mu2 ml2 ni2 no2 br2 bw2) := by
      unfold registerAll
      rw [hok]
      dsimp only
      rw [hreg1]
      dsimp only
      unfold registerAll
      rw [hok2]
      dsimp only
      rw [hreg2]
      rfl
    unfold get_prometheus_format
    rw [hAll]
    rfl

/-- Witness for C7: duplicating `sampleWeb` fails the render with the
duplicate-metric error on container_cpu_usage, while the pair
(`sampleWeb`, `sampleDb`) — distinct container names — renders
successfully. -/
theorem claim_C7_duplicate_witness :
    get_prometheus_format [sampleWeb, sampleWeb] [] =
      Except.error (PErr.duplicateMetric (chars "container_cpu_usage")) ∧
    (get_prometheus_format [sampleWeb, sampleDb] []).isOk = true := by
  constructor
  · exact (claim_C7_duplicate [] sampleWeb sampleWeb sampleWebGauges sampleWebGauges
      (by decide) (by decide)).1 rfl
  · exact (claim_C7_duplicate [] sampleWeb sampleDb sampleWebGauges sampleDbGauges
      (by decide) (by decide)).2 (by decide) (by simp)
